import Mathlib

/-!
Verification development for the astra API-contract extractor.

The Go sources are shallowly embedded: each Lean definition mirrors one Go
function or type.  Go maps are modelled as association lists (first match
wins, insertion replaces in place), Go strings as `String`, Go `int` as
`Int` where the value can be negative and `Nat` for counters.  Types of the
`astra` root package that are not part of the analysed sources (the route
model and small helpers such as `AddReturnType`) are modelled from the
specification and marked as such in their doc comments.
-/

namespace Astra

/-- Association-list lookup, modelling a Go map read (`v, ok := m[k]`). -/
def alistFind {β : Type} (m : List (String × β)) (k : String) : Option β :=
  match m with
  | [] => none
  | (k2, v) :: rest => if k2 = k then some v else alistFind rest k

/-- Association-list update, modelling a Go map write (`m[k] = v`). -/
def alistInsert {β : Type} (m : List (String × β)) (k : String) (v : β) :
    List (String × β) :=
  match m with
  | [] => [(k, v)]
  | (k2, v2) :: rest =>
      if k2 = k then (k, v) :: rest else (k2, v2) :: alistInsert rest k v

/-- Model of Go `strings.TrimSuffix`: drop `suf` from the end of `s` when it
is a suffix, otherwise return `s` unchanged. -/
def strTrimSuffix (s suf : String) : String :=
  if suf.data.isSuffixOf s.data then
    ⟨s.data.take (s.data.length - suf.data.length)⟩
  else s

/-! ## Handler locator (`handlerLocator.go`) -/

/-- Embeds `astra.HandlerLocation`. -/
structure HandlerLocation where
  file : String
  line : Int
deriving DecidableEq

/-- Embeds `astra.MapHandlerLocator`; `none` models a nil Go map. -/
def MapHandlerLocator : Type := Option (List (String × HandlerLocation))

/-- Embeds `MapHandlerLocator.Locate`: nil check, exact match, then the
`-fm`-stripped form when stripping changed the name. -/
def locate (m : MapHandlerLocator) (name : String) : String × Int × Bool :=
  match m with
  | none => ("", 0, false)
  | some entries =>
    match alistFind entries name with
    | some loc => (loc.file, loc.line, true)
    | none =>
      let normalized := strTrimSuffix name "-fm"
      if normalized ≠ name then
        match alistFind entries normalized with
        | some loc => (loc.file, loc.line, true)
        | none => ("", 0, false)
      else ("", 0, false)

/-! ## Package cache (`astTraversal/loadPackage.go`) -/

/-- Embeds the cache key of `LoadPackageWithMode`:
`fmt.Sprintf("%s|%d", pkgPath, mode)`.  The load mode is the underlying
integer of `packages.LoadMode`. -/
def cacheKey (pkgPath : String) (mode : Int) : String :=
  pkgPath ++ "|" ++ toString mode

/-- Outcome of one `LoadPackageWithMode` call: the returned value, the cache
after the call, and whether the underlying loader ran. -/
structure LoadOutcome (α : Type) where
  result : Except String α
  cache : List (String × α)
  loaderCalled : Bool

/-- Embeds `LoadPackageWithMode`.  The underlying
`LoadPackageNoCache`/`packages.Load` pipeline is abstracted as the `loader`
argument; the cache is threaded explicitly instead of living in a global. -/
def loadPackageWithMode {α : Type}
    (loader : String → String → Int → Except String α)
    (cache : List (String × α)) (pkgPath workDir : String) (mode : Int) :
    LoadOutcome α :=
  let key := cacheKey pkgPath mode
  match alistFind cache key with
  | some pkg => ⟨.ok pkg, cache, false⟩
  | none =>
    match loader pkgPath workDir mode with
    | .error e => ⟨.error e, cache, true⟩
    | .ok pkg => ⟨.ok pkg, alistInsert cache key pkg, true⟩

/-! ## Binding tags and the resolver/route field model

`astTraversal.BindingTagType` is a string enum (`json|xml|yaml|form|uri|header`
plus the empty no-tag); `astra.Field` is the route model's projection of the
resolver's `Result` (spec §3: same shape). -/

/-- Embeds `astTraversal.BindingTagType` (`noTag` is `NoBindingTag`). -/
inductive BindingTagType where
  | json
  | xml
  | yaml
  | form
  | uri
  | header
  | noTag
deriving DecidableEq

/-- String form of a binding tag, as used inside Go map keys. -/
def bindingTagString : BindingTagType → String
  | .json => "json"
  | .xml => "xml"
  | .yaml => "yaml"
  | .form => "form"
  | .uri => "uri"
  | .header => "header"
  | .noTag => ""

/-- Embeds `astTraversal.BindingTag` (`{Name, NotShown, IsRequired}`). -/
structure BindingTag where
  name : String
  notShown : Bool
  isRequired : Bool
deriving DecidableEq

/-- The zero `BindingTag`, the value a Go map read returns for a missing
binding kind (`BindingTag{}`). -/
def bindingTagZero : BindingTag := ⟨"", false, false⟩

/-- Read of a `BindingTagMap`: missing keys yield the zero value. -/
def bindingTagGet (tags : List (BindingTagType × BindingTag))
    (bt : BindingTagType) : BindingTag :=
  match tags.find? (fun p => p.1 = bt) with
  | some p => p.2
  | none => bindingTagZero

/-- Modelled from the spec: enum constant values are literals parsed as
string, integer, unsigned integer, float, or bool (spec §4.2); a float is
kept as its source literal. -/
inductive EnumValue where
  | str (s : String)
  | int (i : Int)
  | uint (n : Nat)
  | float (lit : String)
  | bool (b : Bool)
deriving DecidableEq

/-- Modelled from the spec: the scalar fields of `astra.Field` /
`astTraversal.Result` (spec §3 lists the field set; the struct-field map is
split off so the type can recurse). -/
structure FieldData where
  type : String := ""
  name : String := ""
  pkg : String := ""
  sliceType : String := ""
  arrayType : String := ""
  arrayLength : Int := 0
  mapKeyType : String := ""
  mapKeyPackage : String := ""
  mapValueType : String := ""
  mapValuePackage : String := ""
  mapValueSliceType : String := ""
  mapValueArrayType : String := ""
  mapValueArrayLength : Int := 0
  isEmbedded : Bool := false
  enumValues : List EnumValue := []
  enumNames : List String := []
  doc : String := ""
  bindingTags : List (BindingTagType × BindingTag) := []
  validationTags : List (String × String) := []
deriving DecidableEq

/-- Modelled from the spec: `astra.Field`, with `StructFields` as an ordered
association list of field identifier to nested `Field`. -/
inductive Field where
  | mk (data : FieldData) (structFields : List (String × Field))

/-- Scalar part of a `Field`. -/
def Field.data : Field → FieldData
  | .mk d _ => d

/-- Struct-field list of a `Field`. -/
def Field.structFields : Field → List (String × Field)
  | .mk _ sfs => sfs

/-- The zero `Field` value. -/
def fieldZero : Field := .mk {} []

/-- A `Field` carrying only a type sentinel (e.g. `Field{Type: "string"}`). -/
def mkTypeField (t : String) : Field := .mk { type := t } []

/-- Whether a `Field` is the zero value (used where Go compares against the
empty struct). -/
def fieldIsEmptyB : Field → Bool
  | .mk d sfs => decide (d = {}) && sfs.isEmpty

/-! ## Route model (spec §3; the astra root package is not part of the
analysed sources, so these are modelled from the spec) -/

/-- Modelled from the spec: `astra.Param`. -/
structure Param where
  name : String := ""
  field : Field := fieldZero
  isRequired : Bool := false
  isBound : Bool := false
  isArray : Bool := false
  isMap : Bool := false

/-- Modelled from the spec: `astra.BodyParam` (`Param` plus `ContentType`). -/
structure BodyParam where
  name : String := ""
  contentType : String := ""
  field : Field := fieldZero
  isRequired : Bool := false
  isBound : Bool := false
  isArray : Bool := false
  isMap : Bool := false

/-- Modelled from the spec: `astra.ReturnType`. -/
structure ReturnType where
  statusCode : Int := 0
  contentType : String := ""
  field : Field := fieldZero

/-- Modelled from the spec: `astra.Route`. -/
structure Route where
  path : String := ""
  method : String := ""
  doc : String := ""
  operationID : String := ""
  file : String := ""
  lineNo : Int := 0
  pathParams : List Param := []
  queryParams : List Param := []
  requestHeaders : List Param := []
  responseHeaders : List Param := []
  body : List BodyParam := []
  returnTypes : List ReturnType := []

/-- Modelled from the spec: `astra.AddReturnType`.  `ReturnTypes` is a set
keyed by `(StatusCode, ContentType)`; a second write with the same key
replaces the content (the field) only if the new content is non-empty
(spec §3 invariants). -/
def addReturnType (rts : List ReturnType) (rt : ReturnType) : List ReturnType :=
  if rts.any (fun r => r.statusCode = rt.statusCode ∧ r.contentType = rt.contentType) then
    rts.map (fun r =>
      if r.statusCode = rt.statusCode ∧ r.contentType = rt.contentType
          ∧ ¬fieldIsEmptyB rt.field then
        { r with field := rt.field }
      else r)
  else rts ++ [rt]

/-- Modelled from the spec: `astra.BindingTagToContentTypes` — each body
binding kind names its content type (spec §4.3.1: a body entry for each of
`form|json|xml|yaml` content-type; `PostForm` uses
`application/x-www-form-urlencoded` for form data). -/
def bindingTagToContentTypes : BindingTagType → List String
  | .form => ["application/x-www-form-urlencoded"]
  | .json => ["application/json"]
  | .xml => ["application/xml"]
  | .yaml => ["application/yaml"]
  | .uri => []
  | .header => []
  | .noTag => []

/-! ## Gin handler walker (`inputs/gin`, `parseFunction`)

A recognised context-method call whose builder slots all resolved is one
`GinCall`; the slot payloads (`StatusCode()` integer, `Value()` string
literal, `ExpressionResult()` resolved field) are carried in the
constructor.  `applyCall` embeds the corresponding `Build` callback from
`parseFunction`'s dispatch. -/

inductive GinCall where
  | json (statusCode : Int) (result : Field)
  | xml (statusCode : Int) (result : Field)
  | yaml (statusCode : Int) (result : Field)
  | protoBuf (statusCode : Int) (result : Field)
  | dataCall (statusCode : Int) (result : Field)
  | stringCall (statusCode : Int)
  | statusCall (statusCode : Int)
  | getQuery (name : String)
  | getQueryArray (name : String)
  | getQueryMap (name : String)
  | shouldBindQuery (result : Field)
  | shouldBind (result : Field)
  | shouldBindJSON (result : Field)
  | shouldBindXML (result : Field)
  | shouldBindYAML (result : Field)
  | getPostForm (name : String)
  | getPostFormArray (name : String)
  | getPostFormMap (name : String)
  | formFile (name : String)
  | getHeader (name : String)
  | shouldBindHeader (result : Field)
  | headerCall (name : String)
  | abortWithError (statusCode : Int)
  | abortWithStatus (statusCode : Int)
  | abortWithStatusJSON (statusCode : Int) (result : Field)
  | unknown

/-- The body entries appended by the `ShouldBind`/`Bind` case: one per
content type of each of the `form|json|xml|yaml` binding tags, bound and
carrying the resolved field. -/
def bindBodyEntries (f : Field) : List BodyParam :=
  (([BindingTagType.form, .json, .xml, .yaml].map (fun bt =>
    (bindingTagToContentTypes bt).map (fun ct =>
      ({ contentType := ct, isBound := true, field := f } : BodyParam)))).flatten)

/-- Embeds the per-call-expression route mutation of `parseFunction`'s
context-method dispatch (`inputs/gin`, the `switch funcType.Name()`). -/
def applyCall (route : Route) (call : GinCall) : Route :=
  match call with
  | .json sc f =>
      { route with returnTypes := (addReturnType route.returnTypes
          ({ statusCode := sc, contentType := "application/json", field := f } : ReturnType)) }
  | .xml sc f =>
      { route with returnTypes := (addReturnType route.returnTypes
          ({ statusCode := sc, contentType := "application/xml", field := f } : ReturnType)) }
  | .yaml sc f =>
      { route with returnTypes := (addReturnType route.returnTypes
          ({ statusCode := sc, contentType := "application/yaml", field := f } : ReturnType)) }
  | .protoBuf sc f =>
      { route with returnTypes := (addReturnType route.returnTypes
          ({ statusCode := sc, contentType := "application/protobuf", field := f } : ReturnType)) }
  | .dataCall sc f =>
      { route with returnTypes := (addReturnType route.returnTypes
          ({ statusCode := sc, field := f } : ReturnType)) }
  | .stringCall sc =>
      { route with returnTypes := (addReturnType route.returnTypes
          ({ statusCode := sc, contentType := "text/plain", field := mkTypeField "string" } : ReturnType)) }
  | .statusCall sc =>
      { route with returnTypes := (addReturnType route.returnTypes
          ({ statusCode := sc, field := mkTypeField "nil" } : ReturnType)) }
  | .getQuery n =>
      { route with queryParams := route.queryParams
          ++ [{ name := n, field := mkTypeField "string" }] }
  | .getQueryArray n =>
      { route with queryParams := route.queryParams
          ++ [{ name := n, field := mkTypeField "string", isArray := true }] }
  | .getQueryMap n =>
      { route with queryParams := route.queryParams
          ++ [{ name := n, field := mkTypeField "string", isMap := true }] }
  | .shouldBindQuery f =>
      { route with queryParams := route.queryParams
          ++ [{ isBound := true, field := f }] }
  | .shouldBind f =>
      { route with
          queryParams := route.queryParams ++ [{ isBound := true, field := f }],
          body := route.body ++ bindBodyEntries f }
  | .shouldBindJSON f =>
      { route with body := route.body
          ++ [{ contentType := "application/json", isBound := true, field := f }] }
  | .shouldBindXML f =>
      { route with body := route.body
          ++ [{ contentType := "application/xml", isBound := true, field := f }] }
  | .shouldBindYAML f =>
      { route with body := route.body
          ++ [{ contentType := "application/yaml", isBound := true, field := f }] }
  | .getPostForm n =>
      { route with body := route.body
          ++ [{ contentType := "application/x-www-form-urlencoded",
                field := mkTypeField "string", name := n }] }
  | .getPostFormArray n =>
      { route with body := route.body
          ++ [{ contentType := "application/x-www-form-urlencoded",
                field := mkTypeField "string", name := n, isArray := true }] }
  | .getPostFormMap n =>
      { route with body := route.body
          ++ [{ contentType := "application/x-www-form-urlencoded",
                field := mkTypeField "string", name := n, isMap := true }] }
  | .formFile n =>
      { route with body := route.body
          ++ [{ contentType := "multipart/form-data",
                field := mkTypeField "file", name := n }] }
  | .getHeader n =>
      { route with requestHeaders := route.requestHeaders
          ++ [{ name := n, field := mkTypeField "string" }] }
  | .shouldBindHeader f =>
      { route with requestHeaders := route.requestHeaders
          ++ [{ isBound := true, field := f }] }
  | .headerCall n =>
      { route with responseHeaders := route.responseHeaders
          ++ [{ name := n, field := mkTypeField "string" }] }
  | .abortWithError sc =>
      { route with returnTypes := (addReturnType route.returnTypes
          ({ statusCode := sc, field := mkTypeField "nil" } : ReturnType)) }
  | .abortWithStatus sc =>
      { route with returnTypes := (addReturnType route.returnTypes
          ({ statusCode := sc, field := mkTypeField "nil" } : ReturnType)) }
  | .abortWithStatusJSON sc f =>
      { route with returnTypes := (addReturnType route.returnTypes
          ({ statusCode := sc, contentType := "application/json", field := f } : ReturnType)) }
  | .unknown => route

/-- The walk over a function body: every recognised call mutates the route
in source order. -/
def walkCalls (route : Route) (calls : List GinCall) : Route :=
  calls.foldl applyCall route

/-- The synthetic fallback return type appended at depth 0
(`{http.StatusOK, "application/json", Field{Type:"struct"}}`). -/
def syntheticOKReturn : ReturnType :=
  { statusCode := 200, contentType := "application/json",
    field := mkTypeField "struct" }

/-- Embeds `parseFunction`'s route mutation at a given recursion level: the
walk over the recognised calls, then, at level 0, the fallback of the
synthetic 200/JSON struct return when no return type was found. -/
def parseFunctionModel (level : Nat) (route : Route) (calls : List GinCall) :
    Route :=
  let r := walkCalls route calls
  if level = 0 ∧ r.returnTypes.isEmpty then
    { r with returnTypes := addReturnType r.returnTypes syntheticOKReturn }
  else r

/-! ## Route population (`inputs/gin/parseRoutes.go`) -/

/-- Model of Go `filepath.ToSlash`: replace the OS path separator by a
slash. -/
def toSlash (sep : Char) (s : String) : String :=
  ⟨s.data.map (fun c => if c = sep then '/' else c)⟩

/-- Model of Go `strings.HasPrefix`. -/
def strHasPre (s pre : String) : Bool :=
  decide (s.data.take pre.data.length = pre.data)

/-- Embeds `shouldSkipRouteParse`: non-empty file whose normalised path
starts with `vendor/`. -/
def shouldSkipRouteParse (sep : Char) (route : Route) : Bool :=
  if route.file = "" then false
  else strHasPre (toSlash sep route.file) "vendor/"

/-- Embeds the loop body of `ParseRoutes`: parse each route; on failure skip
vendor-sourced routes (keeping them unreplaced) and abort on any other
failure; on success the parsed route replaces the original. -/
def parseRoutesLoop (sep : Char) (parse : Route → Except String Route) :
    List Route → Except String (List Route)
  | [] => .ok []
  | r :: rs =>
    match parse r with
    | .ok r2 =>
      match parseRoutesLoop sep parse rs with
      | .ok rest => .ok (r2 :: rest)
      | .error e2 => .error e2
    | .error e =>
      if shouldSkipRouteParse sep r then
        match parseRoutesLoop sep parse rs with
        | .ok rest => .ok (r :: rest)
        | .error e2 => .error e2
      else .error e

/-! ## Type resolver recursion safety (`astTraversal/loadPackage.go`,
`TypeTraverser.Result` guard, `typeTraceLabel`, `recursionResult`) -/

/-- Shape of a `go/types` type node as far as the recursion guard inspects
it.  A `PackageNode` is identified by its import path; a named type with a
`nil` package has `none`. -/
inductive TypeNode where
  | basic (name : String)
  | named (pkg : Option String) (name : String)
  | pointer (elem : TypeNode)
  | slice (elem : TypeNode)
  | array (len : Int) (elem : TypeNode)
  | mapT (key value : TypeNode)
  | structT (fields : List (String × TypeNode))
  | interfaceT

mutual

/-- Model of `types.Type.String()` (the `nString` helper): a stable
stringified form of the node.  The exact rendering of struct and interface
bodies follows `go/types`' qualified printing in shape; what the proofs use
is only which nodes render to the empty string. -/
def typeString : TypeNode → String
  | .basic n => n
  | .named (some p) n => p ++ "." ++ n
  | .named none n => n
  | .pointer e => "*" ++ typeString e
  | .slice e => "[]" ++ typeString e
  | .array len e => "[" ++ toString len ++ "]" ++ typeString e
  | .mapT k v => "map[" ++ typeString k ++ "]" ++ typeString v
  | .structT fields =>
      "struct\x7b" ++ String.intercalate "; " (typeStringFields fields) ++ "\x7d"
  | .interfaceT => "interface\x7b\x7d"

/-- Helper of `typeString` for a struct body, one rendered entry per
field. -/
def typeStringFields : List (String × TypeNode) → List String
  | [] => []
  | (n, t) :: rest => (n ++ " " ++ typeString t) :: typeStringFields rest

end

/-- Embeds `typeTraceLabel`: `pkg.Name` for a named type, the stringified
form otherwise. -/
def typeTraceLabel : TypeNode → String
  | .named (some p) n => p ++ "." ++ n
  | .named none n => n
  | t => typeString t

/-- Embeds the `Result` record of `astTraversal` as far as the recursion
guard populates it (`recursionResult` sets no other field). -/
structure RResult where
  type : String := ""
  pkg : Option String := none
  sliceType : String := ""
  arrayType : String := ""
  arrayLength : Int := 0
  mapKeyType : String := ""
  mapKeyPackage : Option String := none
  mapValueType : String := ""
deriving DecidableEq

/-- Embeds `typeNameAndPackage`: name and package for a named node, the
stringified form and no package otherwise. -/
def typeNameAndPackage : TypeNode → String × Option String
  | .named pkg n => (n, pkg)
  | t => (typeString t, none)

/-- Embeds `recursionResult`: the value returned instead of recursing when
the trace guard fires.  Named types (alone or behind a pointer, slice or
array) yield a reference-shaped result; maps yield a map-shaped result via
`typeNameAndPackage`; anything else falls back to the node's stringified
form when it is non-empty (`ctxPkg` is the traverser's current package,
only used by that fallback). -/
def recursionResult (t : TypeNode) (ctxPkg : Option String) : Option RResult :=
  match t with
  | .named pkg n => some { type := n, pkg := pkg }
  | .pointer (.named pkg n) => some { type := n, pkg := pkg }
  | .slice (.named pkg n) => some { type := "slice", sliceType := n, pkg := pkg }
  | .array len (.named pkg n) =>
      some { type := "array", arrayType := n, arrayLength := len, pkg := pkg }
  | .mapT k v =>
      let kp := typeNameAndPackage k
      let vp := typeNameAndPackage v
      some { type := "map", mapKeyType := kp.1, mapKeyPackage := kp.2,
             mapValueType := vp.1, pkg := vp.2 }
  | other =>
      let tr := typeString other
      if tr ≠ "" then some { type := tr, pkg := ctxPkg } else none

/-- Embeds the return value of `TypeTraverser.Result` on stack re-entry or
depth overflow: `recursionResult` when it applies, otherwise the
`{Type:"any"}` fallback. -/
def recursionReturn (t : TypeNode) (ctxPkg : Option String) : RResult :=
  match recursionResult t ctxPkg with
  | some r => r
  | none => { type := "any", pkg := ctxPkg }

/-- Embeds the guard condition of `TypeTraverser.Result`: a non-empty trace
label already on the in-progress stack, or a positive depth limit that the
stack has reached. -/
def recursionGuardTriggers (trace : List String) (limit : Nat)
    (t : TypeNode) : Bool :=
  (typeTraceLabel t ≠ "" && trace.contains (typeTraceLabel t))
    || (limit > 0 && trace.length ≥ limit)

/-- The early return of `TypeTraverser.Result`: `some` of the recursion
result when the guard fires, `none` when resolution proceeds normally. -/
def resultOnRecursion (trace : List String) (limit : Nat) (t : TypeNode)
    (ctxPkg : Option String) : Option RResult :=
  if recursionGuardTriggers trace limit t then some (recursionReturn t ctxPkg)
  else none

/-! ## OpenAPI schema emission (`outputs/openapi`) -/

/-- Scalar fields of `openapi.Schema` (the sub-schema references and lists
are split off so the type can recurse). -/
structure SchemaData where
  ref : String := ""
  type : String := ""
  format : String := ""
  description : String := ""
  enum : List EnumValue := []
  required : List String := []
  maxLength : Int := 0
  xEnumVarNames : List String := []
deriving DecidableEq

/-- Embeds `openapi.Schema`. -/
inductive Schema where
  | mk (data : SchemaData) (items additionalProperties notSchema : Option Schema)
       (allOf oneOf anyOf : List Schema) (properties : List (String × Schema))

/-- Scalar part of a `Schema`. -/
def Schema.data : Schema → SchemaData
  | .mk d _ _ _ _ _ _ _ => d

/-- The `Items` sub-schema. -/
def Schema.items : Schema → Option Schema
  | .mk _ it _ _ _ _ _ _ => it

/-- The `AdditionalProperties` sub-schema. -/
def Schema.additionalProperties : Schema → Option Schema
  | .mk _ _ ap _ _ _ _ _ => ap

/-- The `Not` sub-schema. -/
def Schema.notSchema : Schema → Option Schema
  | .mk _ _ _ ns _ _ _ _ => ns

/-- The `AllOf` list. -/
def Schema.allOf : Schema → List Schema
  | .mk _ _ _ _ ao _ _ _ => ao

/-- The `OneOf` list. -/
def Schema.oneOf : Schema → List Schema
  | .mk _ _ _ _ _ oo _ _ => oo

/-- The `AnyOf` list. -/
def Schema.anyOf : Schema → List Schema
  | .mk _ _ _ _ _ _ ao _ => ao

/-- The `Properties` map (ordered association list). -/
def Schema.properties : Schema → List (String × Schema)
  | .mk _ _ _ _ _ _ _ ps => ps

/-- The zero `Schema{}`. -/
def emptySchema : Schema := .mk {} none none none [] [] [] []

/-- A schema carrying a type and a format. -/
def typeFormatSchema (t fmt : String) : Schema :=
  .mk { type := t, format := fmt } none none none [] [] [] []

/-- A schema carrying only a type. -/
def typeSchema (t : String) : Schema := typeFormatSchema t ""

/-- A schema carrying only a `$ref`. -/
def refSchema (r : String) : Schema :=
  .mk { ref := r } none none none [] [] [] []

/-- Functional update of the `Items` sub-schema. -/
def Schema.withItems : Schema → Option Schema → Schema
  | .mk d _ ap ns ao oo an ps, it => .mk d it ap ns ao oo an ps

/-- Functional update of the `AdditionalProperties` sub-schema. -/
def Schema.withAdditionalProperties : Schema → Option Schema → Schema
  | .mk d it _ ns ao oo an ps, ap => .mk d it ap ns ao oo an ps

/-- Functional update of the `AllOf` list. -/
def Schema.withAllOf : Schema → List Schema → Schema
  | .mk d it ap ns _ oo an ps, ao => .mk d it ap ns ao oo an ps

/-- Functional update of the `Properties` map. -/
def Schema.withProperties : Schema → List (String × Schema) → Schema
  | .mk d it ap ns ao oo an _, ps => .mk d it ap ns ao oo an ps

/-- Functional update of the `Ref` field. -/
def Schema.withRef : Schema → String → Schema
  | .mk d it ap ns ao oo an ps, r => .mk { d with ref := r } it ap ns ao oo an ps

/-- Functional update of the `Enum` list. -/
def Schema.withEnum : Schema → List EnumValue → Schema
  | .mk d it ap ns ao oo an ps, e => .mk { d with enum := e } it ap ns ao oo an ps

/-- Functional update of the `XEnumVarNames` list. -/
def Schema.withXEnumVarNames : Schema → List String → Schema
  | .mk d it ap ns ao oo an ps, e =>
      .mk { d with xEnumVarNames := e } it ap ns ao oo an ps

/-- Functional update of the `MaxLength` field. -/
def Schema.withMaxLength : Schema → Int → Schema
  | .mk d it ap ns ao oo an ps, n => .mk { d with maxLength := n } it ap ns ao oo an ps

/-- Embeds `isSchemaEmpty` (`outputs/openapi`): no ref, type, items,
additional properties, not, enum, required, allOf, oneOf, anyOf, or
properties. -/
def isSchemaEmpty (s : Schema) : Bool :=
  s.data.ref = "" && s.data.type = "" && s.items.isNone
    && s.additionalProperties.isNone && s.notSchema.isNone
    && s.data.enum.isEmpty && s.data.required.isEmpty
    && s.allOf.isEmpty && s.oneOf.isEmpty && s.anyOf.isEmpty
    && s.properties.isEmpty

/-- Embeds `ensureSchema`: substitute `{type:"string"}` for an empty
schema. -/
def ensureSchema (s : Schema) : Schema :=
  if isSchemaEmpty s then typeSchema "string" else s

/-- Modelled from the spec: `astra.PredefinedTypeMap` — accepted primitive
types map to the OpenAPI predefined table (`string|integer|number|boolean|
file` with `format`); the container sentinels map to `array`/`object`
(spec §4.4). -/
def predefinedTypeMap : List (String × (String × String)) :=
  [("string", ("string", "")),
   ("int", ("integer", "")), ("int8", ("integer", "")),
   ("int16", ("integer", "")), ("int32", ("integer", "int32")),
   ("int64", ("integer", "int64")),
   ("uint", ("integer", "")), ("uint8", ("integer", "")),
   ("uint16", ("integer", "")), ("uint32", ("integer", "int32")),
   ("uint64", ("integer", "int64")),
   ("float32", ("number", "float")), ("float64", ("number", "double")),
   ("bool", ("boolean", "")),
   ("byte", ("string", "byte")), ("rune", ("string", "")),
   ("file", ("string", "binary")),
   ("slice", ("array", "")), ("array", ("array", "")),
   ("map", ("object", "")), ("struct", ("object", "")),
   ("any", ("", "")), ("nil", ("", ""))]

/-- Modelled from the spec: `astra.IsAcceptedType` — membership in the
predefined table. -/
def isAcceptedType (t : String) : Bool :=
  (alistFind predefinedTypeMap t).isSome

/-- Embeds `mapPredefinedTypeFormat`: the predefined schema for an accepted
type, the zero schema when the entry has no type or the type is not in the
table. -/
def mapPredefinedTypeFormat (t : String) : Schema :=
  match alistFind predefinedTypeMap t with
  | some (ty, fmt) => if ty = "" then emptySchema else typeFormatSchema ty fmt
  | none => emptySchema

/-- Modelled from the spec: the service's custom type mappings
(`Service.GetTypeMapping`), keyed by type name and package, yielding an
OpenAPI type/format pair (spec §4.4: custom user-supplied type mappings
override everything). -/
def getTypeMapping (tm : List ((String × String) × (String × String)))
    (name pkg : String) : Option (String × String) :=
  match tm.find? (fun p => p.1.1 = name ∧ p.1.2 = pkg) with
  | some p => some p.2
  | none => none

/-- Embeds `mapTypeFormat`: the custom mapping's schema, the zero schema
when the mapping has no type or is absent. -/
def mapTypeFormat (tm : List ((String × String) × (String × String)))
    (name pkg : String) : Schema :=
  match getTypeMapping tm name pkg with
  | some (ty, fmt) => if ty = "" then emptySchema else typeFormatSchema ty fmt
  | none => emptySchema

/-- Embeds `getPackageName`: the part of the import path after the last
slash. -/
def getPackageName (pkg : String) : String :=
  (pkg.splitOn "/").getLastD ""

/-- Embeds `collisionSafeKey`. -/
def collisionSafeKey (bt : BindingTagType) (name pkg : String) : String :=
  if bt ≠ .noTag then
    String.intercalate "." [pkg, bindingTagString bt, name]
  else
    String.intercalate "." [pkg, name]

/-- Embeds `makeComponentRefName` over an explicit `collisionSafeNames`
map: the binding-specific key first, then the untagged key. -/
def makeComponentRefName (csn : List (String × String)) (bt : BindingTagType)
    (name pkg : String) : Option String :=
  match alistFind csn (collisionSafeKey bt name pkg) with
  | some n => some n
  | none => alistFind csn (collisionSafeKey .noTag name pkg)

/-- Embeds `makeComponentRef`. -/
def makeComponentRef (csn : List (String × String)) (bt : BindingTagType)
    (name pkg : String) : Option String :=
  (makeComponentRefName csn bt name pkg).map
    (fun n => "#/components/schemas/" ++ n)

/-- Embeds `overrideFieldSchema`: the hard-coded
`(proto.Blog, sharedThread, ChatThread) → SimpleChatThread` rename. -/
def overrideFieldSchema (csn : List (String × String)) (bt : BindingTagType)
    (compName compPkg : String) (f : Field) (fieldBinding : BindingTag) :
    Option Schema :=
  if getPackageName compPkg = "proto" ∧ compName = "Blog"
      ∧ fieldBinding.name = "sharedThread" ∧ f.data.type = "ChatThread" then
    (makeComponentRef csn bt "SimpleChatThread" f.data.pkg).map refSchema
  else none

/-- Embeds `mapMapValueSchema`: the `additionalProperties` (or array item)
schema for a map-typed field's value side. -/
def mapMapValueSchema (csn : List (String × String)) (bt : BindingTagType)
    (f : Field) : Schema :=
  let d := f.data
  if d.mapValueType = "slice" then
    let itemSchema := mapPredefinedTypeFormat d.mapValueSliceType
    let itemSchema :=
      if itemSchema.data.type = "" && !isAcceptedType d.mapValueSliceType then
        let pkg := if d.mapValuePackage = "" then d.pkg else d.mapValuePackage
        match makeComponentRef csn bt d.mapValueSliceType pkg with
        | some r => refSchema r
        | none => itemSchema
      else itemSchema
    (typeSchema "array").withItems (some itemSchema)
  else if d.mapValueType = "array" then
    let itemSchema := mapPredefinedTypeFormat d.mapValueArrayType
    let itemSchema :=
      if itemSchema.data.type = "" && !isAcceptedType d.mapValueArrayType then
        let pkg := if d.mapValuePackage = "" then d.pkg else d.mapValuePackage
        match makeComponentRef csn bt d.mapValueArrayType pkg with
        | some r => refSchema r
        | none => itemSchema
      else itemSchema
    (typeSchema "array").withItems (some itemSchema)
  else
    let addProps := mapPredefinedTypeFormat d.mapValueType
    if addProps.data.type = "" && !isAcceptedType d.mapValueType then
      let pkg := if d.mapValuePackage = "" then d.pkg else d.mapValuePackage
      match makeComponentRef csn bt d.mapValueType pkg with
      | some r => addProps.withRef r
      | none => addProps
    else addProps

/-- Assembly of a struct schema from its embedded refs and named
properties: the `AllOf` move shared by `componentToSchema` and
`mapInlineStructToSchema`. -/
def assembleStructSchema (embedded : List Schema)
    (props : List (String × Schema)) : Schema :=
  if embedded.isEmpty then (typeSchema "object").withProperties props
  else if props.isEmpty then ((typeSchema "object").withProperties []).withAllOf embedded
  else ((typeSchema "object").withProperties []).withAllOf
    (embedded ++ [emptySchema.withProperties props])

mutual

/-- Embeds `componentToSchema` (`outputs/openapi`): custom type mappings
first; a struct assembles embedded refs and shown properties (note: without
`ensureSchema` on the properties); slices, arrays and maps build container
schemas; anything else is a predefined type, a component reference, or an
enum-decorated predefined type. -/
def componentToSchema (tm : List ((String × String) × (String × String)))
    (csn : List (String × String)) (bt : BindingTagType) :
    Field → Schema × Bool
  | .mk d sfs =>
    if (getTypeMapping tm d.name d.pkg).isSome then
      (mapTypeFormat tm d.name d.pkg, true)
    else if d.type = "struct" then
      match componentProps tm csn bt d.pkg d.name ([], []) sfs with
      | none => (emptySchema, false)
      | some (embedded, props) => (assembleStructSchema embedded props, true)
    else if d.type = "slice" then
      let itemSchema := mapPredefinedTypeFormat d.sliceType
      let itemSchema :=
        if itemSchema.data.type = "" && !isAcceptedType d.sliceType then
          match makeComponentRef csn bt d.sliceType d.pkg with
          | some r => refSchema r
          | none => itemSchema
        else itemSchema
      ((typeSchema "array").withItems (some itemSchema), true)
    else if d.type = "array" then
      let itemSchema := mapPredefinedTypeFormat d.arrayType
      let itemSchema :=
        if itemSchema.data.type = "" && !isAcceptedType d.arrayType then
          match makeComponentRef csn bt d.arrayType d.pkg with
          | some r => refSchema r
          | none => itemSchema
        else itemSchema
      (((typeSchema "array").withItems (some itemSchema)).withMaxLength
        d.arrayLength, true)
    else if d.type = "map" then
      ((typeSchema "object").withAdditionalProperties
        (some (mapMapValueSchema csn bt (.mk d sfs))), true)
    else
      let schema := mapPredefinedTypeFormat d.type
      if schema.data.type = "" && !isAcceptedType d.type then
        match makeComponentRef csn bt d.type d.pkg with
        | some r => (refSchema r, true)
        | none => (schema, true)
      else
        let schema :=
          if !d.enumValues.isEmpty then
            let schema := schema.withEnum d.enumValues
            if d.enumNames.length = d.enumValues.length
                && d.enumNames.any (fun n => n ≠ "") then
              schema.withXEnumVarNames d.enumNames
            else schema
          else schema
        (schema, true)

/-- Loop body of `componentToSchema`'s struct branch over the component's
fields, accumulating embedded refs and shown properties in declaration
order; `none` models the early `return Schema{}, false` when a field has
neither the requested binding nor the untagged one. -/
def componentProps (tm : List ((String × String) × (String × String)))
    (csn : List (String × String)) (bt : BindingTagType)
    (compPkg compName : String)
    (acc : List Schema × List (String × Schema)) :
    List (String × Field) → Option (List Schema × List (String × Schema))
  | [] => some acc
  | (_, f) :: rest =>
    let d := Field.data f
    if d.isEmbedded then
      let acc2 :=
        match makeComponentRef csn bt d.type d.pkg with
        | some r => (acc.1 ++ [refSchema r], acc.2)
        | none => acc
      componentProps tm csn bt compPkg compName acc2 rest
    else
      let fieldBinding := bindingTagGet d.bindingTags bt
      let fieldNoBinding := bindingTagGet d.bindingTags .noTag
      if fieldBinding = bindingTagZero ∧ fieldNoBinding = bindingTagZero then
        none
      else
        let fb := if fieldBinding = bindingTagZero then fieldNoBinding
                  else fieldBinding
        if fb.notShown then componentProps tm csn bt compPkg compName acc rest
        else
          match overrideFieldSchema csn bt compName compPkg f fb with
          | some ov =>
            componentProps tm csn bt compPkg compName
              (acc.1, alistInsert acc.2 fb.name ov) rest
          | none =>
            let fs := componentToSchema tm csn bt f
            let acc2 :=
              if fs.2 then (acc.1, alistInsert acc.2 fb.name fs.1) else acc
            componentProps tm csn bt compPkg compName acc2 rest

end

mutual

/-- Embeds `mapFieldToSchema` (`outputs/openapi`): inline-struct rendering
first when the field is a struct with fields, then component references for
non-accepted types, then predefined types with slice/map container
handling. -/
def mapFieldToSchema (csn : List (String × String)) (bt : BindingTagType)
    (f : Field) : Schema × Bool :=
  let d := Field.data f
  let inlined :=
    if d.type = "struct" && !(Field.structFields f).isEmpty then
      mapInlineStructToSchema csn bt f
    else (emptySchema, false)
  if inlined.2 then (inlined.1, true)
  else if !isAcceptedType d.type then
    match makeComponentRef csn bt d.type d.pkg with
    | some r => (refSchema r, true)
    | none => (emptySchema, false)
  else
    let schema := mapPredefinedTypeFormat d.type
    if d.type = "slice" then
      let itemSchema := typeSchema (mapPredefinedTypeFormat d.sliceType).data.type
      let itemSchema :=
        if !isAcceptedType d.sliceType then
          match makeComponentRef csn bt d.sliceType d.pkg with
          | some r => refSchema r
          | none => itemSchema
        else itemSchema
      (schema.withItems (some itemSchema), true)
    else if d.type = "map" then
      (schema.withAdditionalProperties (some (mapMapValueSchema csn bt f)), true)
    else (schema, true)
termination_by (sizeOf f, 1)

/-- Embeds `mapInlineStructToSchema`: like the struct branch of
`componentToSchema` but recursing through `mapFieldToSchema` and guarding
every stored property with `ensureSchema`. -/
def mapInlineStructToSchema (csn : List (String × String))
    (bt : BindingTagType) : Field → Schema × Bool
  | .mk _ sfs =>
    match inlineProps csn bt ([], []) sfs with
    | none => (emptySchema, false)
    | some (embedded, props) => (assembleStructSchema embedded props, true)
termination_by f => (sizeOf f, 0)

/-- Loop body of `mapInlineStructToSchema` over the struct's fields; every
shown property is stored as `ensureSchema` of its field schema. -/
def inlineProps (csn : List (String × String)) (bt : BindingTagType)
    (acc : List Schema × List (String × Schema)) :
    List (String × Field) → Option (List Schema × List (String × Schema))
  | [] => some acc
  | (_, f) :: rest =>
    let d := Field.data f
    if d.isEmbedded then
      let acc2 :=
        match makeComponentRef csn bt d.type d.pkg with
        | some r => (acc.1 ++ [refSchema r], acc.2)
        | none => acc
      inlineProps csn bt acc2 rest
    else
      let fieldBinding := bindingTagGet d.bindingTags bt
      let fieldNoBinding := bindingTagGet d.bindingTags .noTag
      if fieldBinding = bindingTagZero ∧ fieldNoBinding = bindingTagZero then
        none
      else
        let fb := if fieldBinding = bindingTagZero then fieldNoBinding
                  else fieldBinding
        if fb.notShown then inlineProps csn bt acc rest
        else
          let fs := mapFieldToSchema csn bt f
          let acc2 :=
            if fs.2 then (acc.1, alistInsert acc.2 fb.name (ensureSchema fs.1))
            else acc
          inlineProps csn bt acc2 rest
termination_by l => (sizeOf l, 0)

end

/-! ## Operation ids (`outputs/openapi/generate.go`) -/

/-- Lowercase the first character of a word. -/
def lowerFirst : List Char → List Char
  | [] => []
  | c :: cs => Char.toLower c :: cs

/-- Uppercase the first character of a word. -/
def upperFirst : List Char → List Char
  | [] => []
  | c :: cs => Char.toUpper c :: cs

/-- Split a character list into its maximal space-free runs. -/
def spaceWords (cs : List Char) (acc : List Char) : List (List Char) :=
  match cs with
  | [] => if acc = [] then [] else [acc.reverse]
  | c :: rest =>
    if c = ' ' then
      if acc = [] then spaceWords rest []
      else acc.reverse :: spaceWords rest []
    else spaceWords rest (c :: acc)

/-- Modelled from the spec: `lowerCamel` (the external
`strcase.ToLowerCamel`): split on spaces, lowercase the head of the first
word, uppercase the head of every following word, and concatenate
(spec §4.4). -/
def toLowerCamel (s : String) : String :=
  match spaceWords s.data [] with
  | [] => ""
  | w :: ws => ⟨lowerFirst w ++ (ws.map upperFirst).flatten⟩

/-- Model of Go `strings.ToLower` for ASCII. -/
def strToLower (s : String) : String := ⟨s.data.map Char.toLower⟩

/-- Embeds `defaultOperationID`: lowerCamel of the lowercased method, a
space, and the path, after substituting every non-letter non-digit rune by
a space.  `unicode.IsLetter`/`IsDigit` are modelled by the ASCII
classifiers, enough for HTTP methods and route paths. -/
def defaultOperationID (method endpointPath : String) : String :=
  let raw := strToLower method ++ " " ++ endpointPath
  let sanitized : String := ⟨raw.data.map (fun r =>
    if r.isAlpha || r.isDigit then r else ' ')⟩
  toLowerCamel sanitized

/-- Embeds the operation-id assignment block of `Generate`: take the
route's id or the default; when the id is non-empty, bump its usage count
and suffix `_<new count>` when it was seen before; an empty id is not
assigned. -/
def assignOperationID (routeOpID method endpointPath : String)
    (ids : List (String × Nat)) : Option String × List (String × Nat) :=
  let opID := if routeOpID = "" then defaultOperationID method endpointPath
              else routeOpID
  if opID ≠ "" then
    match alistFind ids opID with
    | some count =>
        (some (opID ++ "_" ++ toString (count + 1)),
         alistInsert ids opID (count + 1))
    | none => (some opID, alistInsert ids opID 1)
  else (none, ids)

/-! ## Enum constant scan (`astTraversal/loadPackage.go`, the
`*types.Basic` case of `TypeTraverser.Result`) -/

/-- A value expression inside a `const` value spec: a basic literal with
its source text, or any other expression. -/
inductive ConstLit where
  | basicLit (value : String)
  | otherExpr
deriving DecidableEq

/-- An `ast.ValueSpec` inside a `const` declaration: the declared type
identifier when it is a plain identifier, the names, and the values. -/
structure ConstValueSpec where
  typeIdent : Option String
  names : List String
  values : List ConstLit

/-- An `ast.GenDecl`: whether its token is `CONST`, and its value specs. -/
structure ConstDecl where
  isConst : Bool
  specs : List ConstValueSpec

/-- Embeds `appendEnumName`'s index guard: the name at `i` when in range,
`""` otherwise. -/
def nameAt (names : List String) (i : Nat) : String :=
  (names.get? i).getD ""

/-- Embeds the inner value loop of the enum scan: walk the values of one
spec with their indices; a basic literal whose parse at the type's kind
succeeds appends its parsed value and its name, everything else appends
neither.  The kind-specific literal parser (`strconv` plus the quote-trim
for strings) is the `parse` argument. -/
def scanSpecValues {α : Type} (parse : String → Option α)
    (names : List String) : Nat → List ConstLit → List α × List String
  | _, [] => ([], [])
  | i, v :: vs =>
    let rest := scanSpecValues parse names (i + 1) vs
    match v with
    | .otherExpr => rest
    | .basicLit lit =>
      match parse lit with
      | none => rest
      | some a => (a :: rest.1, nameAt names i :: rest.2)

/-- Embeds the spec-level filter of the enum scan: only specs whose
declared type identifier equals the named type contribute. -/
def scanSpec {α : Type} (parse : String → Option α) (target : String)
    (s : ConstValueSpec) : List α × List String :=
  if s.typeIdent = some target then scanSpecValues parse s.names 0 s.values
  else ([], [])

/-- Embeds the declaration-level filter of the enum scan: non-`const`
declarations are skipped, the spec results are concatenated in order. -/
def scanDecl {α : Type} (parse : String → Option α) (target : String)
    (d : ConstDecl) : List α × List String :=
  if d.isConst then
    d.specs.foldl (fun acc s =>
      let r := scanSpec parse target s
      (acc.1 ++ r.1, acc.2 ++ r.2)) ([], [])
  else ([], [])

/-- Embeds the whole enum scan over a package's declarations: the
`EnumValues` and `EnumNames` lists accumulated by the `*types.Basic` case
for a named basic type. -/
def enumScan {α : Type} (parse : String → Option α) (target : String)
    (decls : List ConstDecl) : List α × List String :=
  decls.foldl (fun acc d =>
    let r := scanDecl parse target d
    (acc.1 ++ r.1, acc.2 ++ r.2)) ([], [])

/-- Characterisation device for the enum scan: the list of
(parsed value, constant name) pairs of the successfully parsed literals of
one spec, in order, starting at index `i`. -/
def specPairs {α : Type} (parse : String → Option α) (names : List String) :
    Nat → List ConstLit → List (α × String)
  | _, [] => []
  | i, v :: vs =>
    match v with
    | .otherExpr => specPairs parse names (i + 1) vs
    | .basicLit lit =>
      match parse lit with
      | none => specPairs parse names (i + 1) vs
      | some a => (a, nameAt names i) :: specPairs parse names (i + 1) vs

/-- Characterisation device at the spec level: the pairs of a spec when its
declared type matches, nothing otherwise. -/
def specSel {α : Type} (parse : String → Option α) (target : String)
    (s : ConstValueSpec) : List (α × String) :=
  if s.typeIdent = some target then specPairs parse s.names 0 s.values else []

/-- Characterisation device at the declaration level. -/
def declPairs {α : Type} (parse : String → Option α) (target : String)
    (d : ConstDecl) : List (α × String) :=
  if d.isConst then
    d.specs.foldl (fun acc s => acc ++ specSel parse target s) []
  else []

/-- Characterisation device at the package level: every successfully parsed
constant of every matching spec of every `const` declaration, paired with
its name, in order. -/
def enumPairs {α : Type} (parse : String → Option α) (target : String)
    (decls : List ConstDecl) : List (α × String) :=
  decls.foldl (fun acc d => acc ++ declPairs parse target d) []

/-- The amended claim's description of the recursion-guard return value:
named types and pointers/slices/arrays of named types give reference
shapes; a map gives a map shape whose key/value names fall back to the
stringified form when not named; every other node gives its stringified
form, and `"any"` only when that form is empty. -/
def claimedRecursionReturn (t : TypeNode) (ctxPkg : Option String) : RResult :=
  match t with
  | .named pkg n => { type := n, pkg := pkg }
  | .pointer (.named pkg n) => { type := n, pkg := pkg }
  | .slice (.named pkg n) => { type := "slice", sliceType := n, pkg := pkg }
  | .array len (.named pkg n) =>
      { type := "array", arrayType := n, arrayLength := len, pkg := pkg }
  | .mapT k v =>
      { type := "map", mapKeyType := (typeNameAndPackage k).1,
        mapKeyPackage := (typeNameAndPackage k).2,
        mapValueType := (typeNameAndPackage v).1,
        pkg := (typeNameAndPackage v).2 }
  | other =>
      if typeString other = "" then { type := "any", pkg := ctxPkg }
      else { type := typeString other, pkg := ctxPkg }

/-- A struct component with one shown field whose named type has no
predefined mapping and no collision-safe component name: the property's
schema comes out empty. -/
def cexComponent : Field :=
  .mk { type := "struct" }
    [("F", .mk { type := "Missing", pkg := "p",
                 bindingTags := [(.noTag, ⟨"f", false, false⟩)] } [])]

/-! ## Helper lemmas -/

/-- Inserting a key makes it findable with the inserted value. -/
theorem alistFind_alistInsert_self {β : Type} (m : List (String × β))
    (k : String) (v : β) : alistFind (alistInsert m k v) k = some v := by
  induction m with
  | nil => simp [alistInsert, alistFind]
  | cons p rest ih =>
    obtain ⟨k2, v2⟩ := p
    by_cases h : k2 = k
    · simp [alistInsert, alistFind, h]
    · simp [alistInsert, alistFind, h, ih]

/-- Trimming a suffix that was just appended recovers the original
string. -/
theorem strTrimSuffix_append (k suf : String) :
    strTrimSuffix (k ++ suf) suf = k := by
  have hdata : (k ++ suf).data = k.data ++ suf.data := String.data_append k suf
  unfold strTrimSuffix
  rw [hdata]
  rw [if_pos (by simp [List.isSuffixOf])]
  have hlen : (k.data ++ suf.data).length - suf.data.length = k.data.length := by
    simp
  rw [hlen, List.take_left]

/-- Appending a non-empty suffix changes the string. -/
theorem append_fm_ne (k : String) : k ++ "-fm" ≠ k := by
  intro h
  have hl : (k ++ "-fm").data.length = k.data.length := by rw [h]
  rw [String.data_append] at hl
  simp at hl

/-! ## Claim theorems -/

/-- Claim C10: for every handler name, `Locate` on a nil map-backed handler
locator returns `("", 0, false)` (and, being total, never panics). -/
theorem locate_nil_returns_not_found (name : String) :
    locate none name = ("", 0, false) := rfl

/-- Claim C5 (theorem): a second call to the cached package load with the
same package path and mode — and any working directory — returns the value
memoised by a first successful call, leaves the cache unchanged, and does
not invoke the underlying loader. -/
theorem load_package_cached_second_call {α : Type}
    (loader : String → String → Int → Except String α)
    (cache : List (String × α)) (pkgPath wd1 wd2 : String) (mode : Int)
    (pkg : α)
    (h : (loadPackageWithMode loader cache pkgPath wd1 mode).result = .ok pkg) :
    loadPackageWithMode loader
        (loadPackageWithMode loader cache pkgPath wd1 mode).cache
        pkgPath wd2 mode
      = ⟨.ok pkg, (loadPackageWithMode loader cache pkgPath wd1 mode).cache,
         false⟩ := by
  unfold loadPackageWithMode at h ⊢
  cases hfind : alistFind cache (cacheKey pkgPath mode) with
  | some v =>
    simp [hfind] at h ⊢
    simp [h, hfind]
  | none =>
    simp [hfind] at h ⊢
    cases hload : loader pkgPath wd1 mode with
    | error e => simp [hload] at h
    | ok p =>
      simp [hload] at h
      subst h
      simp [alistFind_alistInsert_self]

/-- Claim C5 (witness): concrete instantiation with a loader returning `7`
for package `p` in mode `5`; the first call loads, the second returns the
memoised value from a different working directory without the loader. -/
theorem load_package_cached_second_call_witness :
    loadPackageWithMode (fun _ _ _ => Except.ok (7 : Nat))
        (loadPackageWithMode (fun _ _ _ => Except.ok (7 : Nat)) [] "p" "w1" 5).cache
        "p" "w2" 5
      = ⟨.ok 7,
         (loadPackageWithMode (fun _ _ _ => Except.ok (7 : Nat)) [] "p" "w1" 5).cache,
         false⟩ :=
  load_package_cached_second_call (fun _ _ _ => Except.ok 7) [] "p" "w1" "w2" 5 7 rfl

/-- Claim C6 (counterexample): with both the stripped name and the `-fm`
form present in the index with different locations, `Locate` of the two
names disagrees, because the exact match takes precedence over
stripping. -/
theorem locate_fm_exact_match_cex :
    locate (some [("h", ⟨"a.go", 1⟩), ("h-fm", ⟨"b.go", 2⟩)]) "h"
        = ("a.go", 1, true)
      ∧ locate (some [("h", ⟨"a.go", 1⟩), ("h-fm", ⟨"b.go", 2⟩)]) ("h" ++ "-fm")
        = ("b.go", 2, true)
      ∧ (("b.go", 2, true) : String × Int × Bool) ≠ ("a.go", 1, true) := by
  refine ⟨by decide, by decide, by decide⟩

/-- Claim C6 (amended): where the index contains the stripped name `k` and
does not also contain `k ++ "-fm"` as an exact key, `Locate` of `k` and of
`k ++ "-fm"` both return `k`'s entry; an exact `k ++ "-fm"` entry would take
precedence. -/
theorem locate_fm_suffix_agrees (entries : List (String × HandlerLocation))
    (k : String) (loc : HandlerLocation)
    (h1 : alistFind entries k = some loc)
    (h2 : alistFind entries (k ++ "-fm") = none) :
    locate (some entries) k = (loc.file, loc.line, true)
      ∧ locate (some entries) (k ++ "-fm") = (loc.file, loc.line, true) := by
  constructor
  · simp [locate, h1]
  · simp [locate, h2, strTrimSuffix_append, h1]
    exact fun hh => append_fm_ne k hh.symm

/-- Claim C6 (witness): a one-entry index located through both the plain and
the `-fm`-suffixed name. -/
theorem locate_fm_suffix_agrees_witness :
    locate (some [("h", ⟨"a.go", 1⟩)]) "h" = ("a.go", 1, true)
      ∧ locate (some [("h", ⟨"a.go", 1⟩)]) ("h" ++ "-fm") = ("a.go", 1, true) :=
  locate_fm_suffix_agrees [("h", ⟨"a.go", 1⟩)] "h" ⟨"a.go", 1⟩ (by decide)
    (by decide)

/-- Claim C7 (counterexample): the second route with the same method and
path receives the suffix `_2` — after one prior use of the id, not `_1` as
the claim states. -/
theorem operation_id_suffix_cex :
    assignOperationID "" "GET" "/a" [] = (some "getA", [("getA", 1)])
      ∧ (assignOperationID "" "GET" "/a" [("getA", 1)]).1 = some "getA_2"
      ∧ "getA_2" ≠ "getA_1" := by
  refine ⟨by decide, by decide, by decide⟩

/-- Claim C7 (amended): a route without an `OperationID` is assigned
lowerCamel of the lowercased method, a space, and the path with non-letter
non-digit runes replaced by spaces; an id not seen before is assigned bare
and its count set to 1, and an id already used `n` times receives the
suffix `_<n+1>` (the count after this use). -/
theorem operation_id_assignment (method endpointPath : String)
    (ids : List (String × Nat))
    (hne : defaultOperationID method endpointPath ≠ "") :
    (alistFind ids (defaultOperationID method endpointPath) = none →
      assignOperationID "" method endpointPath ids
        = (some (defaultOperationID method endpointPath),
           alistInsert ids (defaultOperationID method endpointPath) 1))
      ∧ (∀ n, alistFind ids (defaultOperationID method endpointPath) = some n →
          assignOperationID "" method endpointPath ids
            = (some (defaultOperationID method endpointPath ++ "_"
                ++ toString (n + 1)),
               alistInsert ids (defaultOperationID method endpointPath)
                 (n + 1))) := by
  constructor
  · intro hfind
    simp [assignOperationID, hne, hfind]
  · intro n hfind
    simp [assignOperationID, hne, hfind]

/-- Claim C7 (witness): with `getA` already used once, the next `GET /a`
route is assigned `getA_2`. -/
theorem operation_id_assignment_witness :
    assignOperationID "" "GET" "/a" [("getA", 1)]
      = (some (defaultOperationID "GET" "/a" ++ "_" ++ toString (1 + 1)),
         alistInsert [("getA", 1)] (defaultOperationID "GET" "/a") 2) :=
  (operation_id_assignment "GET" "/a" [("getA", 1)] (by decide)).2 1 (by decide)

/-- Claim C8: a parse failure on a route whose file has the (normalised)
`vendor/` prefix skips that route and continues with the rest; the same
failure on any other route aborts the run with the error. -/
theorem vendor_route_parse_failure_demoted (sep : Char)
    (parse : Route → Except String Route) (r : Route) (rs : List Route)
    (e : String) (h : parse r = .error e) :
    (shouldSkipRouteParse sep r = true →
      parseRoutesLoop sep parse (r :: rs)
        = (parseRoutesLoop sep parse rs).map (fun l => r :: l))
      ∧ (shouldSkipRouteParse sep r = false →
          parseRoutesLoop sep parse (r :: rs) = .error e) := by
  constructor
  · intro hskip
    simp only [parseRoutesLoop, h, hskip, if_true]
    cases parseRoutesLoop sep parse rs <;> simp [Except.map]
  · intro hskip
    simp [parseRoutesLoop, h, hskip]

/-- Claim C8 (witness): a vendor-sourced route whose parse fails is kept
unreplaced and does not abort the (otherwise empty) run. -/
theorem vendor_route_parse_failure_demoted_witness :
    parseRoutesLoop '/' (fun _ => .error "boom")
        [{ file := "vendor/a.go" }] = .ok [{ file := "vendor/a.go" }] := by
  have h := (vendor_route_parse_failure_demoted '/' (fun _ => .error "boom")
    { file := "vendor/a.go" } [] "boom" rfl).1 (by decide)
  rw [h]
  rfl

/-- Claim C1: for every route handed to the handler walker at depth 0 that
completes without error, `ReturnTypes` is non-empty afterwards; when no
return type was extracted by any call, the single synthetic
`{200, "application/json", Field{Type:"struct"}}` is what the list holds. -/
theorem route_return_types_nonempty_after_walk (route : Route)
    (calls : List GinCall) :
    (parseFunctionModel 0 route calls).returnTypes ≠ []
      ∧ ((walkCalls route calls).returnTypes = [] →
          (parseFunctionModel 0 route calls).returnTypes
            = [syntheticOKReturn]) := by
  by_cases h : (walkCalls route calls).returnTypes = []
  · have he : (parseFunctionModel 0 route calls).returnTypes
        = [syntheticOKReturn] := by
      simp [parseFunctionModel, h, addReturnType]
    exact ⟨by simp [he], fun _ => he⟩
  · have he : parseFunctionModel 0 route calls = walkCalls route calls := by
      simp [parseFunctionModel, List.isEmpty_iff, h]
    exact ⟨by simpa [he] using h, fun hc => absurd hc h⟩

/-- Claim C1 (witness): a fresh route with no recognised calls ends the walk
with exactly the synthetic 200/JSON struct return. -/
theorem route_return_types_nonempty_after_walk_witness :
    (parseFunctionModel 0 {} []).returnTypes = [syntheticOKReturn] :=
  (route_return_types_nonempty_after_walk {} []).2 rfl

/-- Claim C4: a `ShouldBind`/`Bind` call whose argument resolves appends
exactly one bound query-side `Param` carrying the resolved field and
exactly four bound body entries with the same field, one per
form/json/xml/yaml content type. -/
theorem bind_call_appends_query_and_bodies (route : Route) (f : Field) :
    applyCall route (.shouldBind f)
        = { route with
              queryParams := route.queryParams
                ++ [{ isBound := true, field := f }],
              body := route.body ++ bindBodyEntries f }
      ∧ bindBodyEntries f
          = [{ contentType := "application/x-www-form-urlencoded",
               isBound := true, field := f },
             { contentType := "application/json", isBound := true, field := f },
             { contentType := "application/xml", isBound := true, field := f },
             { contentType := "application/yaml", isBound := true, field := f }]
      ∧ (bindBodyEntries f).length = 4
      ∧ (applyCall route (.shouldBind f)).queryParams.length
          = route.queryParams.length + 1 := by
  refine ⟨rfl, rfl, rfl, ?_⟩
  simp [applyCall]

/-- Claim C2 (counterexample): on stack re-entry at a pointer to a basic
type — neither a named type nor a container of one — the guard's result
carries the node's stringified form `*int`, not the claimed `"any"`. -/
theorem recursion_fallback_not_any_cex :
    (resultOnRecursion ["*int"] 10 (.pointer (.basic "int")) none).map
        RResult.type = some "*int"
      ∧ "*int" ≠ "any" := by
  refine ⟨by decide, by decide⟩

/-- The fallback arm of the recursion guard, shared by the non-named
non-container cases. -/
theorem recursionReturn_of_fallback (t : TypeNode) (ctxPkg : Option String)
    (hf : recursionResult t ctxPkg
        = if typeString t = "" then none
          else some { type := typeString t, pkg := ctxPkg }) :
    recursionReturn t ctxPkg
      = if typeString t = "" then { type := "any", pkg := ctxPkg }
        else { type := typeString t, pkg := ctxPkg } := by
  by_cases hh : typeString t = "" <;> simp [recursionReturn, hf, hh]

/-- Claim C2 (amended): when the trace label is on the stack or the depth
limit is reached, the resolver returns without recursing; named types and
pointer/slice/array-of-named yield reference shapes, maps yield a map
shape, and every other node yields its stringified form — `"any"` only when
that form is empty. -/
theorem recursion_guard_shapes (trace : List String) (limit : Nat)
    (t : TypeNode) (ctxPkg : Option String)
    (h : recursionGuardTriggers trace limit t = true) :
    resultOnRecursion trace limit t ctxPkg = some (recursionReturn t ctxPkg)
      ∧ recursionReturn t ctxPkg = claimedRecursionReturn t ctxPkg := by
  refine ⟨by simp [resultOnRecursion, h], ?_⟩
  cases t with
  | basic n =>
      simpa [claimedRecursionReturn] using
        recursionReturn_of_fallback (.basic n) ctxPkg (by simp [recursionResult])
  | named pkg n => simp [recursionReturn, recursionResult, claimedRecursionReturn]
  | pointer e =>
      cases e with
      | named pkg n =>
          simp [recursionReturn, recursionResult, claimedRecursionReturn]
      | basic n =>
          simpa [claimedRecursionReturn] using
            recursionReturn_of_fallback (.pointer (.basic n)) ctxPkg
              (by simp [recursionResult])
      | pointer e2 =>
          simpa [claimedRecursionReturn] using
            recursionReturn_of_fallback (.pointer (.pointer e2)) ctxPkg
              (by simp [recursionResult])
      | slice e2 =>
          simpa [claimedRecursionReturn] using
            recursionReturn_of_fallback (.pointer (.slice e2)) ctxPkg
              (by simp [recursionResult])
      | array len e2 =>
          simpa [claimedRecursionReturn] using
            recursionReturn_of_fallback (.pointer (.array len e2)) ctxPkg
              (by simp [recursionResult])
      | mapT k v =>
          simpa [claimedRecursionReturn] using
            recursionReturn_of_fallback (.pointer (.mapT k v)) ctxPkg
              (by simp [recursionResult])
      | structT fields =>
          simpa [claimedRecursionReturn] using
            recursionReturn_of_fallback (.pointer (.structT fields)) ctxPkg
              (by simp [recursionResult])
      | interfaceT =>
          simpa [claimedRecursionReturn] using
            recursionReturn_of_fallback (.pointer .interfaceT) ctxPkg
              (by simp [recursionResult])
  | slice e =>
      cases e with
      | named pkg n =>
          simp [recursionReturn, recursionResult, claimedRecursionReturn]
      | basic n =>
          simpa [claimedRecursionReturn] using
            recursionReturn_of_fallback (.slice (.basic n)) ctxPkg
              (by simp [recursionResult])
      | pointer e2 =>
          simpa [claimedRecursionReturn] using
            recursionReturn_of_fallback (.slice (.pointer e2)) ctxPkg
              (by simp [recursionResult])
      | slice e2 =>
          simpa [claimedRecursionReturn] using
            recursionReturn_of_fallback (.slice (.slice e2)) ctxPkg
              (by simp [recursionResult])
      | array len e2 =>
          simpa [claimedRecursionReturn] using
            recursionReturn_of_fallback (.slice (.array len e2)) ctxPkg
              (by simp [recursionResult])
      | mapT k v =>
          simpa [claimedRecursionReturn] using
            recursionReturn_of_fallback (.slice (.mapT k v)) ctxPkg
              (by simp [recursionResult])
      | structT fields =>
          simpa [claimedRecursionReturn] using
            recursionReturn_of_fallback (.slice (.structT fields)) ctxPkg
              (by simp [recursionResult])
      | interfaceT =>
          simpa [claimedRecursionReturn] using
            recursionReturn_of_fallback (.slice .interfaceT) ctxPkg
              (by simp [recursionResult])
  | array len e =>
      cases e with
      | named pkg n =>
          simp [recursionReturn, recursionResult, claimedRecursionReturn]
      | basic n =>
          simpa [claimedRecursionReturn] using
            recursionReturn_of_fallback (.array len (.basic n)) ctxPkg
              (by simp [recursionResult])
      | pointer e2 =>
          simpa [claimedRecursionReturn] using
            recursionReturn_of_fallback (.array len (.pointer e2)) ctxPkg
              (by simp [recursionResult])
      | slice e2 =>
          simpa [claimedRecursionReturn] using
            recursionReturn_of_fallback (.array len (.slice e2)) ctxPkg
              (by simp [recursionResult])
      | array len2 e2 =>
          simpa [claimedRecursionReturn] using
            recursionReturn_of_fallback (.array len (.array len2 e2)) ctxPkg
              (by simp [recursionResult])
      | mapT k v =>
          simpa [claimedRecursionReturn] using
            recursionReturn_of_fallback (.array len (.mapT k v)) ctxPkg
              (by simp [recursionResult])
      | structT fields =>
          simpa [claimedRecursionReturn] using
            recursionReturn_of_fallback (.array len (.structT fields)) ctxPkg
              (by simp [recursionResult])
      | interfaceT =>
          simpa [claimedRecursionReturn] using
            recursionReturn_of_fallback (.array len .interfaceT) ctxPkg
              (by simp [recursionResult])
  | mapT k v => simp [recursionReturn, recursionResult, claimedRecursionReturn]
  | structT fields =>
      simpa [claimedRecursionReturn] using
        recursionReturn_of_fallback (.structT fields) ctxPkg
          (by simp [recursionResult])
  | interfaceT =>
      simpa [claimedRecursionReturn] using
        recursionReturn_of_fallback .interfaceT ctxPkg
          (by simp [recursionResult])

/-- Claim C2 (witness): a named type already on the trace stack returns its
reference shape. -/
theorem recursion_guard_shapes_witness :
    resultOnRecursion ["p.T"] 0 (.named (some "p") "T") none
        = some (recursionReturn (.named (some "p") "T") none)
      ∧ recursionReturn (.named (some "p") "T") none
        = claimedRecursionReturn (.named (some "p") "T") none :=
  recursion_guard_shapes ["p.T"] 0 (.named (some "p") "T") none (by decide)

/-- The inner value loop agrees with its pair-list characterisation at
every start index. -/
theorem scanSpecValues_eq_pairs {α : Type} (parse : String → Option α)
    (names : List String) (vs : List ConstLit) :
    ∀ i, scanSpecValues parse names i vs
      = ((specPairs parse names i vs).map Prod.fst,
         (specPairs parse names i vs).map Prod.snd) := by
  induction vs with
  | nil => intro i; rfl
  | cons v rest ih =>
    intro i
    cases v with
    | otherExpr => simp [scanSpecValues, specPairs, ih]
    | basicLit lit =>
      cases hp : parse lit with
      | none => simp [scanSpecValues, specPairs, hp, ih]
      | some a => simp [scanSpecValues, specPairs, hp, ih]

/-- One spec agrees with its selected pair list. -/
theorem scanSpec_eq_pairs {α : Type} (parse : String → Option α)
    (target : String) (s : ConstValueSpec) :
    scanSpec parse target s
      = ((specSel parse target s).map Prod.fst,
         (specSel parse target s).map Prod.snd) := by
  by_cases h : s.typeIdent = some target <;>
    simp [scanSpec, specSel, h, scanSpecValues_eq_pairs]

/-- A fold that appends component-wise agrees with the fold that appends
the pair lists, whenever the per-element results agree. -/
theorem foldl_pairs_eq {α β : Type} (g : β → List α × List String)
    (gp : β → List (α × String))
    (hg : ∀ b, g b = ((gp b).map Prod.fst, (gp b).map Prod.snd))
    (l : List β) :
    ∀ acc : List (α × String),
      l.foldl (fun a b => (a.1 ++ (g b).1, a.2 ++ (g b).2))
          (acc.map Prod.fst, acc.map Prod.snd)
        = ((l.foldl (fun a b => a ++ gp b) acc).map Prod.fst,
           (l.foldl (fun a b => a ++ gp b) acc).map Prod.snd) := by
  induction l with
  | nil => intro acc; rfl
  | cons b rest ih =>
    intro acc
    simp only [List.foldl_cons, hg b]
    rw [← List.map_append, ← List.map_append]
    exact ih (acc ++ gp b)

/-- One declaration agrees with its pair list. -/
theorem scanDecl_eq_pairs {α : Type} (parse : String → Option α)
    (target : String) (d : ConstDecl) :
    scanDecl parse target d
      = ((declPairs parse target d).map Prod.fst,
         (declPairs parse target d).map Prod.snd) := by
  by_cases h : d.isConst
  · have := foldl_pairs_eq (scanSpec parse target) (specSel parse target)
      (scanSpec_eq_pairs parse target) d.specs []
    simpa [scanDecl, declPairs, h] using this
  · simp [scanDecl, declPairs, h]

/-- Claim C9: the enum scan's `EnumValues` and `EnumNames` are the two
projections of one list of (value, name) pairs — one pair exactly per
constant whose literal parses at the type's kind — so the lists are
index-aligned and of equal length, and failed literals contribute to
neither. -/
theorem enum_values_names_aligned {α : Type} (parse : String → Option α)
    (target : String) (decls : List ConstDecl) :
    enumScan parse target decls
        = ((enumPairs parse target decls).map Prod.fst,
           (enumPairs parse target decls).map Prod.snd)
      ∧ (enumScan parse target decls).1.length
          = (enumScan parse target decls).2.length := by
  have h := foldl_pairs_eq (scanDecl parse target) (declPairs parse target)
    (scanDecl_eq_pairs parse target) decls []
  have he : enumScan parse target decls
      = ((enumPairs parse target decls).map Prod.fst,
         (enumPairs parse target decls).map Prod.snd) := by
    simpa [enumScan, enumPairs] using h
  exact ⟨he, by simp [he]⟩

/-- Claim C3 (counterexample): `componentToSchema` stores the field's
schema in `properties` without the empty-schema guard, so the emitted
component schema for `cexComponent` carries an empty schema under property
`f`. -/
theorem component_schema_empty_property_cex :
    ((componentToSchema [] [] .noTag cexComponent).1.properties.any
        (fun p => isSchemaEmpty p.2)) = true
      ∧ (componentToSchema [] [] .noTag cexComponent).2 = true := by
  have h : componentToSchema [] [] .noTag cexComponent
      = (assembleStructSchema [] [("f", emptySchema)], true) := by
    simp [cexComponent, componentToSchema, componentProps, getTypeMapping,
      bindingTagGet, bindingTagZero, makeComponentRef, makeComponentRefName,
      collisionSafeKey, alistFind, overrideFieldSchema, getPackageName,
      mapPredefinedTypeFormat, predefinedTypeMap, isAcceptedType, alistInsert,
      Field.data, emptySchema]
  rw [h]
  exact ⟨by decide, rfl⟩

/-- `ensureSchema` never returns an empty schema. -/
theorem isSchemaEmpty_ensureSchema (s : Schema) :
    isSchemaEmpty (ensureSchema s) = false := by
  unfold ensureSchema
  by_cases h : isSchemaEmpty s = true
  · rw [if_pos h]
    decide
  · rw [if_neg h]
    simpa using h

/-- `alistInsert` preserves a predicate on values. -/
theorem alistInsert_forall {β : Type} (P : β → Prop)
    (m : List (String × β)) (k : String) (v : β)
    (hm : ∀ p ∈ m, P p.2) (hv : P v) :
    ∀ p ∈ alistInsert m k v, P p.2 := by
  induction m with
  | nil =>
    intro p hp
    simp only [alistInsert, List.mem_singleton] at hp
    subst hp
    exact hv
  | cons q rest ih =>
    obtain ⟨k2, v2⟩ := q
    intro p hp
    by_cases h : k2 = k
    · simp only [alistInsert, if_pos h] at hp
      rcases List.mem_cons.mp hp with hp1 | hp1
      · subst hp1
        exact hv
      · exact hm p (List.mem_cons_of_mem _ hp1)
    · simp only [alistInsert, if_neg h] at hp
      rcases List.mem_cons.mp hp with hp1 | hp1
      · subst hp1
        exact hm (k2, v2) (List.mem_cons_self _ _)
      · exact ih (fun q hq => hm q (List.mem_cons_of_mem _ hq)) p hp1

/-- Every property accumulated by `inlineProps` went through
`ensureSchema`, so none is empty. -/
theorem inlineProps_props_nonempty (csn : List (String × String))
    (bt : BindingTagType) :
    ∀ (l : List (String × Field)) (acc : List Schema × List (String × Schema)),
      (∀ p ∈ acc.2, isSchemaEmpty p.2 = false) →
      ∀ emb props, inlineProps csn bt acc l = some (emb, props) →
      ∀ p ∈ props, isSchemaEmpty p.2 = false := by
  intro l
  induction l with
  | nil =>
    intro acc hacc emb props h
    obtain ⟨a1, a2⟩ := acc
    simp only [inlineProps, Option.some.injEq] at h
    obtain ⟨h1, h2⟩ := Prod.mk.injEq .. ▸ h
    subst h2
    exact hacc
  | cons hd rest ih =>
    intro acc hacc emb props h
    obtain ⟨nm, f⟩ := hd
    simp only [inlineProps] at h
    by_cases hemb : (Field.data f).isEmbedded
    · simp only [hemb, if_pos rfl, if_true] at h
      cases hmc : makeComponentRef csn bt (Field.data f).type (Field.data f).pkg with
      | some r =>
        rw [hmc] at h
        exact ih (acc.1 ++ [refSchema r], acc.2) hacc emb props h
      | none =>
        rw [hmc] at h
        exact ih acc hacc emb props h
    · simp only [hemb, if_neg, Bool.false_eq_true, if_false] at h
      by_cases hzero : bindingTagGet (Field.data f).bindingTags bt = bindingTagZero
          ∧ bindingTagGet (Field.data f).bindingTags .noTag = bindingTagZero
      · simp only [hzero, if_pos, and_self, if_true] at h
        cases h
      · rw [if_neg hzero] at h
        by_cases hns : (if bindingTagGet (Field.data f).bindingTags bt
              = bindingTagZero then bindingTagGet (Field.data f).bindingTags .noTag
            else bindingTagGet (Field.data f).bindingTags bt).notShown
        · rw [if_pos hns] at h
          exact ih acc hacc emb props h
        · rw [if_neg hns] at h
          by_cases hb : (mapFieldToSchema csn bt f).2
          · rw [if_pos hb] at h
            refine ih _ ?_ emb props h
            exact alistInsert_forall (fun s => isSchemaEmpty s = false) acc.2 _ _
              hacc (isSchemaEmpty_ensureSchema _)
          · rw [if_neg hb] at h
            exact ih acc hacc emb props h

/-- Claim C3 (amended): the empty-schema guard is the `ensureSchema`
applied where inline struct schemas and parameter schemas are built: every
property of an inline struct schema is non-empty.  Properties stored by
`componentToSchema` for emitted components are not guarded and can be
empty (see the counterexample). -/
theorem inline_struct_properties_never_empty (csn : List (String × String))
    (bt : BindingTagType) (f : Field) :
    ((mapInlineStructToSchema csn bt f).1.properties.all
        (fun p => !isSchemaEmpty p.2)) = true := by
  rw [List.all_eq_true]
  intro p hp
  obtain ⟨d, sfs⟩ := f
  cases hip : inlineProps csn bt ([], []) sfs with
  | none =>
    rw [mapInlineStructToSchema, hip] at hp
    simp [emptySchema, Schema.properties] at hp
  | some pr =>
    obtain ⟨emb, props⟩ := pr
    have hprops := inlineProps_props_nonempty csn bt sfs ([], [])
      (by simp) emb props hip
    rw [mapInlineStructToSchema, hip] at hp
    simp only [assembleStructSchema] at hp
    by_cases he : emb.isEmpty
    · rw [if_pos he] at hp
      simp only [typeSchema, typeFormatSchema, Schema.withProperties,
        Schema.properties] at hp
      simp [hprops p hp]
    · rw [if_neg he] at hp
      by_cases hpe : props.isEmpty
      · rw [if_pos hpe] at hp
        simp [typeSchema, typeFormatSchema, Schema.withProperties,
          Schema.withAllOf, Schema.properties] at hp
      · rw [if_neg hpe] at hp
        simp [typeSchema, typeFormatSchema, Schema.withProperties,
          Schema.withAllOf, Schema.properties] at hp

end Astra
